import Mathlib

set_option maxRecDepth 4000

/-!
Shallow embedding of `src/ccd2iso/__init__.py` — the CloneCD `.img` to
ISO 9660 sector demultiplexing core.

The byte stream is a `List Nat` (each element one byte).  The ctypes
structures are modelled by their layout sizes; a constructed `ccd_sector`
instance is the list of bytes copied from the read buffer, and field access
is slicing at the ctypes offsets.  Python exceptions escaping `convert` are
modelled as an error value in the result; writes to `dst_file` are the
accumulated output list; calls to `context.update` (the progress bar) are the
accumulated list of arguments.
-/

namespace Ccd2iso

/-- Constant `DATA_SIZE = 2048` from the source. -/
def DATA_SIZE : Nat := 2048

/-- ctypes `sizeof(ccd_sectheader_header)`: four `c_ubyte` fields
(`sectaddr_min`, `sectaddr_sec`, `sectaddr_frac`, `mode`). -/
def sizeof_ccd_sectheader_header : Nat := 1 + 1 + 1 + 1

/-- ctypes `sizeof(ccd_sectheader)`: `synchronization : c_ubyte * 12` then the
embedded header. -/
def sizeof_ccd_sectheader : Nat := 12 + sizeof_ccd_sectheader_header

/-- ctypes `sizeof(ccd_mode1)`: `data[2048] + edc[4] + unused[8] + ecc[276]`. -/
def sizeof_ccd_mode1 : Nat := DATA_SIZE + 4 + 8 + 276

/-- ctypes `sizeof(ccd_mode2)`: `sectsubheader[8] + data[2048] + edc[4] + ecc[276]`. -/
def sizeof_ccd_mode2 : Nat := 8 + DATA_SIZE + 4 + 276

/-- ctypes `sizeof(ccd_content)`: a `Union` of `ccd_mode1` and `ccd_mode2`,
so the maximum of the member sizes. -/
def sizeof_ccd_content : Nat := max sizeof_ccd_mode1 sizeof_ccd_mode2

/-- ctypes `sizeof(ccd_sector)`: header followed by content union. -/
def sizeof_ccd_sector : Nat := sizeof_ccd_sectheader + sizeof_ccd_content

/-- Reading one `c_ubyte` at a given offset of a byte buffer. -/
def byteAt (l : List Nat) (i : Nat) : Nat := l.getD i 0

/-- A constructed `ccd_sector` instance: the bytes copied out of the read
buffer by `from_buffer_copy`. -/
structure CcdSector where
  bytes : List Nat
deriving Repr, DecidableEq

/-- ctypes `sizeof` applied to a constructed instance: the fixed size of the
`ccd_sector` type (instances are never resized in this program). -/
def CcdSector.sizeofInst (_s : CcdSector) : Nat := sizeof_ccd_sector

/-- Field `src_sect.sectheader.header.mode`: the byte at offset 12 + 3 = 15. -/
def CcdSector.mode (s : CcdSector) : Nat := byteAt s.bytes 15

/-- Field `src_sect.content.mode1.data`: the union starts at offset 16 and the
`ccd_mode1` layout places `data` first, so bytes `[16, 16 + 2048)`. -/
def CcdSector.mode1Data (s : CcdSector) : List Nat :=
  (s.bytes.drop 16).take DATA_SIZE

/-- Field `src_sect.content.mode2.data`: the `ccd_mode2` layout puts the 8-byte
`sectsubheader` before `data`, so bytes `[24, 24 + 2048)`. -/
def CcdSector.mode2Data (s : CcdSector) : List Nat :=
  (s.bytes.drop 24).take DATA_SIZE

/-- The exceptions that can escape `convert`.  `bufferSizeTooSmall` is the
ctypes `ValueError` raised by `from_buffer_copy` when the buffer is shorter
than `sizeof(ccd_sector)` (its message carries the byte counts but no sector
index); the other three are the exception classes defined in the module. -/
inductive ConvError where
  | bufferSizeTooSmall (got : Nat) (expected : Nat)
  | incompleteSector (sectNum : Nat) (got : Nat) (expected : Nat)
  | sessionMarker
  | unrecognizedSectorMode (mode : Nat) (sectNum : Nat)
deriving Repr, DecidableEq

/-- Model of `ccd_sector.from_buffer_copy(bytes_read)`: raises `ValueError` when the
buffer holds fewer than `sizeof(ccd_sector)` bytes, otherwise copies exactly
that many bytes into a new instance. -/
def fromBufferCopy (buf : List Nat) : Except ConvError CcdSector :=
  if buf.length < sizeof_ccd_sector then
    .error (.bufferSizeTooSmall buf.length sizeof_ccd_sector)
  else
    .ok ⟨buf.take sizeof_ccd_sector⟩

/-- Python `==` between an `int` (the value of a `c_ubyte` field) and a
`bytes` literal such as the session marker bytes value: the types are unrelated, so the comparison
is always `False`. -/
def pyIntEqBytes (_n : Nat) (_b : List Nat) : Bool := false

/-- Observable outcome of one `convert` call: the bytes written to
`dst_file` in order, the arguments passed to `context.update` in order, and
the exception that escaped (`none` on normal return). -/
structure ConvOut where
  output : List Nat
  progressCalls : List Nat
  result : Option ConvError
deriving Repr, DecidableEq

/-- The `while bytes_read := src_file.read(expected_size)` loop of `convert`,
with `sect_num` as the loop counter.  `src_file.read(n)` on a sequential
byte stream returns `min n remaining` bytes, i.e. `src.take n`, leaving
`src.drop n`. -/
def convertLoop (src : List Nat) (sectNum : Nat) (progress : Bool) : ConvOut :=
  if h : (src.take sizeof_ccd_sector).isEmpty = true then
    { output := [], progressCalls := [], result := none }
  else
    match fromBufferCopy (src.take sizeof_ccd_sector) with
    | .error e => { output := [], progressCalls := [], result := some e }
    | .ok srcSect =>
      if srcSect.sizeofInst < sizeof_ccd_sector then
        { output := [], progressCalls := [],
          result := some (.incompleteSector sectNum srcSect.sizeofInst sizeof_ccd_sector) }
      else if srcSect.mode = 1 then
        let rest := convertLoop (src.drop sizeof_ccd_sector) (sectNum + 1) progress
        { output := srcSect.mode1Data ++ rest.output,
          progressCalls := (if progress then [sectNum + 1] else []) ++ rest.progressCalls,
          result := rest.result }
      else if srcSect.mode = 2 then
        let rest := convertLoop (src.drop sizeof_ccd_sector) (sectNum + 1) progress
        { output := srcSect.mode2Data ++ rest.output,
          progressCalls := (if progress then [sectNum + 1] else []) ++ rest.progressCalls,
          result := rest.result }
      else if pyIntEqBytes srcSect.mode [0xE2] then
        { output := [], progressCalls := [], result := some .sessionMarker }
      else
        { output := [], progressCalls := [],
          result := some (.unrecognizedSectorMode srcSect.mode sectNum) }
termination_by src.length
decreasing_by
  all_goals
    simp only [List.isEmpty_eq_true, List.take_eq_nil_iff] at h
    have hsz : sizeof_ccd_sector = 2352 := rfl
    rw [List.length_drop, hsz]
    have hpos : 0 < src.length := by
      rcases src with _ | ⟨a, l⟩
      · exact absurd (Or.inr rfl) h
      · simp
    omega

/-- Model of `convert(src_file, dst_file, progress, size)`.  The `size` argument only
feeds the progress bar field `max_value` and never influences reading, parsing,
writing or the reported calls, so it is not part of the observable model. -/
def convert (src : List Nat) (progress : Bool) : ConvOut :=
  convertLoop src 0 progress

/-- The 2048-byte user-data field of a well-formed sector record: offset 16
for mode 1, offset 24 (after the 8-byte sub-header) for mode 2. -/
def payload (sector : List Nat) : List Nat :=
  if byteAt sector 15 = 1 then (sector.drop 16).take DATA_SIZE
  else (sector.drop 24).take DATA_SIZE

/-- A complete sector record of a supported data mode. -/
def IsGoodSector (s : List Nat) : Prop :=
  s.length = sizeof_ccd_sector ∧ (byteAt s 15 = 1 ∨ byteAt s 15 = 2)

instance (s : List Nat) : Decidable (IsGoodSector s) := by
  unfold IsGoodSector; infer_instance

/-- The input stream cut into the successive chunks returned by the
`read(sizeof(ccd_sector))` calls: full 2352-byte records, with a final
shorter chunk when the length is not a multiple of 2352. -/
def chunks (src : List Nat) : List (List Nat) :=
  if src.isEmpty then []
  else src.take sizeof_ccd_sector :: chunks (src.drop sizeof_ccd_sector)
termination_by src.length
decreasing_by
  rw [List.length_drop]
  have hpos : 0 < src.length := by
    cases src with
    | nil => simp_all
    | cons a l => simp
  have hsz : sizeof_ccd_sector = 2352 := rfl
  rw [hsz]
  omega

/-- The content of the sink after a `convert` call that started with
`sink0` already written: `dst_file` only receives `write` calls, so the new
bytes are appended after the old ones. -/
def sinkAfter (sink0 : List Nat) (src : List Nat) (progress : Bool) : List Nat :=
  sink0 ++ (convert src progress).output

/-- Whether an outcome is the `IncompleteSectorError` raised inside `convert`. -/
def isIncompleteSector : Option ConvError → Bool
  | some (ConvError.incompleteSector _ _ _) => true
  | _ => false

/-! ### Concrete sector records -/

/-- A well-formed mode-1 sector record: zeroed sync and address bytes, mode
byte 1, then 2336 content bytes 0x41. -/
def sampleMode1Sector : List Nat :=
  List.replicate 15 0 ++ [1] ++ List.replicate 2336 65

/-- An all-zero record of 2352 bytes, whose mode byte is the unrecognized
value 0. -/
def zeroSector : List Nat := List.replicate 2352 0

/-- A complete record whose mode byte is the session-marker value `0xE2`. -/
def sessionMarkerSector : List Nat :=
  List.replicate 15 0 ++ [0xE2] ++ List.replicate 2336 0

/-- Like `sampleMode1Sector` but with different synchronization and address
bytes (all 7 instead of all 0). -/
def headerVariantSector : List Nat :=
  List.replicate 15 7 ++ [1] ++ List.replicate 2336 65

/-- One full mode-1 sector followed by 5 stray bytes: total length
`1 × 2352 + 5`. -/
def truncatedInput : List Nat := sampleMode1Sector ++ [65, 66, 67, 68, 69]

theorem sizeof_ccd_sector_eq : sizeof_ccd_sector = 2352 := rfl

/-! ### Unfolding lemmas for the conversion loop -/

theorem fromBufferCopy_full (s : List Nat) (hl : s.length = sizeof_ccd_sector) :
    fromBufferCopy s = .ok ⟨s⟩ := by
  rw [fromBufferCopy, if_neg (by omega), List.take_of_length_le (le_of_eq hl)]

theorem convertLoop_nil (n : Nat) (p : Bool) :
    convertLoop [] n p = { output := [], progressCalls := [], result := none } := by
  rw [convertLoop]
  rfl

theorem convertLoop_short (src : List Nat) (n : Nat) (p : Bool)
    (h1 : src ≠ []) (h2 : src.length < sizeof_ccd_sector) :
    convertLoop src n p =
      { output := [], progressCalls := [],
        result := some (.bufferSizeTooSmall src.length sizeof_ccd_sector) } := by
  have ht : src.take sizeof_ccd_sector = src := List.take_of_length_le h2.le
  have hne : src.isEmpty = false := by
    rcases src with _ | ⟨a, t⟩
    · exact absurd rfl h1
    · rfl
  rw [convertLoop]
  simp only [ht, hne, Bool.false_eq_true, dite_false, fromBufferCopy]
  rw [if_pos h2]

theorem convertLoop_mode1 (s rest : List Nat) (n : Nat) (p : Bool)
    (hl : s.length = sizeof_ccd_sector) (hm : byteAt s 15 = 1) :
    convertLoop (s ++ rest) n p =
      { output := (s.drop 16).take DATA_SIZE ++ (convertLoop rest (n + 1) p).output,
        progressCalls :=
          (if p then [n + 1] else []) ++ (convertLoop rest (n + 1) p).progressCalls,
        result := (convertLoop rest (n + 1) p).result } := by
  have hne : s.isEmpty = false := by
    rcases s with _ | ⟨a, t⟩
    · rw [sizeof_ccd_sector_eq] at hl; exact absurd hl (by decide)
    · rfl
  rw [convertLoop]
  simp only [List.take_left' hl, List.drop_left' hl, hne, Bool.false_eq_true,
    dite_false, fromBufferCopy_full s hl]
  simp [CcdSector.sizeofInst, CcdSector.mode, CcdSector.mode1Data, hm]

theorem convertLoop_mode2 (s rest : List Nat) (n : Nat) (p : Bool)
    (hl : s.length = sizeof_ccd_sector) (hm : byteAt s 15 = 2) :
    convertLoop (s ++ rest) n p =
      { output := (s.drop 24).take DATA_SIZE ++ (convertLoop rest (n + 1) p).output,
        progressCalls :=
          (if p then [n + 1] else []) ++ (convertLoop rest (n + 1) p).progressCalls,
        result := (convertLoop rest (n + 1) p).result } := by
  have hne : s.isEmpty = false := by
    rcases s with _ | ⟨a, t⟩
    · rw [sizeof_ccd_sector_eq] at hl; exact absurd hl (by decide)
    · rfl
  rw [convertLoop]
  simp only [List.take_left' hl, List.drop_left' hl, hne, Bool.false_eq_true,
    dite_false, fromBufferCopy_full s hl]
  simp [CcdSector.sizeofInst, CcdSector.mode, CcdSector.mode2Data, hm]

theorem convertLoop_badmode (s rest : List Nat) (n : Nat) (p : Bool)
    (hl : s.length = sizeof_ccd_sector)
    (hm1 : byteAt s 15 ≠ 1) (hm2 : byteAt s 15 ≠ 2) :
    convertLoop (s ++ rest) n p =
      { output := [], progressCalls := [],
        result := some (.unrecognizedSectorMode (byteAt s 15) n) } := by
  have hne : s.isEmpty = false := by
    rcases s with _ | ⟨a, t⟩
    · rw [sizeof_ccd_sector_eq] at hl; exact absurd hl (by decide)
    · rfl
  rw [convertLoop]
  simp only [List.take_left' hl, List.drop_left' hl, hne, Bool.false_eq_true,
    dite_false, fromBufferCopy_full s hl]
  simp [CcdSector.sizeofInst, CcdSector.mode, pyIntEqBytes, hm1, hm2]

theorem convertLoop_good (s rest : List Nat) (n : Nat) (p : Bool)
    (hg : IsGoodSector s) :
    convertLoop (s ++ rest) n p =
      { output := payload s ++ (convertLoop rest (n + 1) p).output,
        progressCalls :=
          (if p then [n + 1] else []) ++ (convertLoop rest (n + 1) p).progressCalls,
        result := (convertLoop rest (n + 1) p).result } := by
  obtain ⟨hl, hm | hm⟩ := hg
  · rw [convertLoop_mode1 s rest n p hl hm]
    simp [payload, hm]
  · rw [convertLoop_mode2 s rest n p hl hm]
    have hne1 : byteAt s 15 ≠ 1 := by rw [hm]; decide
    simp [payload, hne1]

/-! ### The chunk decomposition of the input stream -/

theorem payload_length (s : List Nat) (hl : s.length = sizeof_ccd_sector) :
    (payload s).length = DATA_SIZE := by
  rw [payload]
  split <;>
    simp [List.length_take, List.length_drop, hl, sizeof_ccd_sector_eq, DATA_SIZE]

theorem chunks_nil : chunks [] = [] := by
  rw [chunks]
  rfl

theorem chunks_cons (s rest : List Nat) (hl : s.length = sizeof_ccd_sector) :
    chunks (s ++ rest) = s :: chunks rest := by
  have hne : (s ++ rest).isEmpty = false := by
    rcases s with _ | ⟨a, t⟩
    · rw [sizeof_ccd_sector_eq] at hl; exact absurd hl (by decide)
    · rfl
  rw [chunks]
  simp only [hne, Bool.false_eq_true, if_false, List.take_left' hl, List.drop_left' hl]

theorem chunks_short (src : List Nat) (h1 : src ≠ []) (h2 : src.length < sizeof_ccd_sector) :
    chunks src = [src] := by
  have hne : src.isEmpty = false := by
    rcases src with _ | ⟨a, t⟩
    · exact absurd rfl h1
    · rfl
  rw [chunks, List.take_of_length_le h2.le, List.drop_eq_nil_of_le h2.le]
  simp [hne, chunks_nil]

/-- Master characterization of the conversion loop: there is a count `k` of
fully processed sectors such that the first `k` chunks are well-formed
sectors, the output is the concatenation of their payloads, the progress
calls are the counts `n+1, …, n+k`, success means all chunks were consumed,
and failure happens exactly at chunk `k`. -/
theorem convertLoop_master_aux :
    ∀ (N : Nat) (src : List Nat), src.length ≤ N → ∀ (n : Nat) (p : Bool),
    ∃ k,
      (∀ j, j < k → IsGoodSector ((chunks src).getD j [])) ∧
      (convertLoop src n p).output = (((chunks src).take k).map payload).flatten ∧
      (convertLoop src n p).progressCalls = (if p then List.range' (n + 1) k else []) ∧
      ((convertLoop src n p).result = none → k = (chunks src).length) ∧
      (∀ e, (convertLoop src n p).result = some e →
        k < (chunks src).length ∧ ¬ IsGoodSector ((chunks src).getD k [])) ∧
      isIncompleteSector (convertLoop src n p).result = false := by
  intro N
  induction N with
  | zero =>
    intro src hle n p
    have hnil : src = [] := List.length_eq_zero.mp (Nat.le_zero.mp hle)
    subst hnil
    refine ⟨0, ?_, ?_, ?_, ?_, ?_, ?_⟩ <;>
      simp [convertLoop_nil, chunks_nil, isIncompleteSector]
  | succ N ih =>
    intro src hle n p
    by_cases hnil : src = []
    · subst hnil
      refine ⟨0, ?_, ?_, ?_, ?_, ?_, ?_⟩ <;>
        simp [convertLoop_nil, chunks_nil, isIncompleteSector]
    · by_cases hshort : src.length < sizeof_ccd_sector
      · refine ⟨0, ?_, ?_, ?_, ?_, ?_, ?_⟩ <;>
          simp only [convertLoop_short src n p hnil hshort, chunks_short src hnil hshort]
        · intro j hj
          exact absurd hj (Nat.not_lt_zero j)
        · simp
        · simp
        · simp
        · intro e _
          refine ⟨by simp, ?_⟩
          intro hgood
          simp only [List.getD_cons_zero] at hgood
          rw [IsGoodSector] at hgood
          exact absurd hgood.1 (by omega)
        · simp [isIncompleteSector]
      · obtain ⟨s, rest, rfl, hsl⟩ :
            ∃ s rest, src = s ++ rest ∧ s.length = sizeof_ccd_sector := by
          refine ⟨src.take sizeof_ccd_sector, src.drop sizeof_ccd_sector,
            (List.take_append_drop _ _).symm, ?_⟩
          rw [List.length_take]
          omega
        have hrest : rest.length ≤ N := by
          rw [List.length_append] at hle
          rw [sizeof_ccd_sector_eq] at hsl
          omega
        by_cases hg : IsGoodSector s
        · obtain ⟨k, A, B, C, D, E, F⟩ := ih rest hrest (n + 1) p
          refine ⟨k + 1, ?_, ?_, ?_, ?_, ?_, ?_⟩ <;>
            simp only [convertLoop_good s rest n p hg, chunks_cons s rest hsl]
          · intro j hj
            cases j with
            | zero => simpa using hg
            | succ j => exact A j (by omega)
          · simp [List.take_succ_cons, B]
          · cases p <;> simp [C, List.range'_succ]
          · intro hres
            simp [D hres]
          · intro e hres
            obtain ⟨h1, h2⟩ := E e hres
            refine ⟨by simpa using Nat.succ_lt_succ h1, by simpa using h2⟩
          · exact F
        · have hm12 : byteAt s 15 ≠ 1 ∧ byteAt s 15 ≠ 2 := by
            rw [IsGoodSector] at hg
            constructor
            · intro hc; exact hg ⟨hsl, Or.inl hc⟩
            · intro hc; exact hg ⟨hsl, Or.inr hc⟩
          refine ⟨0, ?_, ?_, ?_, ?_, ?_, ?_⟩ <;>
            simp only [convertLoop_badmode s rest n p hsl hm12.1 hm12.2, chunks_cons s rest hsl]
          · intro j hj
            exact absurd hj (Nat.not_lt_zero j)
          · simp
          · cases p <;> simp [List.range'_zero]
          · simp
          · intro e _
            refine ⟨by simp, ?_⟩
            intro hgc
            simp only [List.getD_cons_zero] at hgc
            exact hg hgc
          · simp [isIncompleteSector]

theorem convertLoop_master (src : List Nat) (n : Nat) (p : Bool) :
    ∃ k,
      (∀ j, j < k → IsGoodSector ((chunks src).getD j [])) ∧
      (convertLoop src n p).output = (((chunks src).take k).map payload).flatten ∧
      (convertLoop src n p).progressCalls = (if p then List.range' (n + 1) k else []) ∧
      ((convertLoop src n p).result = none → k = (chunks src).length) ∧
      (∀ e, (convertLoop src n p).result = some e →
        k < (chunks src).length ∧ ¬ IsGoodSector ((chunks src).getD k [])) ∧
      isIncompleteSector (convertLoop src n p).result = false :=
  convertLoop_master_aux src.length src le_rfl n p

/-! ### Runs of well-formed sectors -/

theorem convertLoop_flatten (sectors : List (List Nat)) (n : Nat) (p : Bool)
    (h : ∀ s ∈ sectors, IsGoodSector s) :
    convertLoop sectors.flatten n p =
      { output := (sectors.map payload).flatten,
        progressCalls := if p then List.range' (n + 1) sectors.length else [],
        result := none } := by
  induction sectors generalizing n with
  | nil =>
    simp [convertLoop_nil, List.range'_zero]
  | cons s rest ih =>
    have hs : IsGoodSector s := h s (by simp)
    have hrest : ∀ t ∈ rest, IsGoodSector t := fun t ht => h t (by simp [ht])
    rw [List.flatten_cons, convertLoop_good s rest.flatten n p hs, ih (n + 1) hrest]
    cases p <;> simp [List.range'_succ]

theorem convertLoop_flatten_append (sectors : List (List Nat)) (tail : List Nat)
    (n : Nat) (p : Bool) (h : ∀ s ∈ sectors, IsGoodSector s) :
    convertLoop (sectors.flatten ++ tail) n p =
      { output := (sectors.map payload).flatten
          ++ (convertLoop tail (n + sectors.length) p).output,
        progressCalls := (if p then List.range' (n + 1) sectors.length else [])
          ++ (convertLoop tail (n + sectors.length) p).progressCalls,
        result := (convertLoop tail (n + sectors.length) p).result } := by
  induction sectors generalizing n with
  | nil =>
    simp [List.range'_zero]
  | cons s rest ih =>
    have hs : IsGoodSector s := h s (by simp)
    have hrest : ∀ t ∈ rest, IsGoodSector t := fun t ht => h t (by simp [ht])
    rw [List.flatten_cons, List.append_assoc,
      convertLoop_good s (rest.flatten ++ tail) n p hs, ih (n + 1) hrest,
      (by simp [List.length_cons]; omega : n + 1 + rest.length = n + (s :: rest).length)]
    cases p <;> simp [List.range'_succ, List.length_cons]

theorem flatten_payload_take_length :
    ∀ (cs : List (List Nat)) (k : Nat),
      (∀ j, j < k → IsGoodSector (cs.getD j [])) → k ≤ cs.length →
      ((cs.take k).map payload).flatten.length = 2048 * k := by
  intro cs
  induction cs with
  | nil =>
    intro k h hk
    have : k = 0 := by simpa using hk
    subst this
    simp
  | cons c rest ih =>
    intro k h hk
    cases k with
    | zero => simp
    | succ k =>
      have hc : IsGoodSector c := by simpa using h 0 (Nat.succ_pos k)
      have hr := ih k (fun j hj => by simpa using h (j + 1) (Nat.succ_lt_succ hj))
        (by simpa using hk)
      simp only [List.take_succ_cons, List.map_cons, List.flatten_cons,
        List.length_append, hr, payload_length c hc.1]
      rw [DATA_SIZE]
      ring

theorem payload_take_blocks :
    ∀ (cs : List (List Nat)) (k : Nat),
      (∀ j, j < k → IsGoodSector (cs.getD j [])) → k ≤ cs.length →
      ∀ b ∈ (cs.take k).map payload, b.length = DATA_SIZE := by
  intro cs
  induction cs with
  | nil =>
    intro k h hk b hb
    have : k = 0 := by simpa using hk
    subst this
    simp at hb
  | cons c rest ih =>
    intro k h hk b hb
    cases k with
    | zero => simp at hb
    | succ k =>
      simp only [List.take_succ_cons, List.map_cons, List.mem_cons] at hb
      rcases hb with rfl | hb
      · exact payload_length c (by simpa using (h 0 (Nat.succ_pos k)).1)
      · exact ih k (fun j hj => by simpa using h (j + 1) (Nat.succ_lt_succ hj))
          (by simpa using hk) b hb

theorem flatten_payload_length (sectors : List (List Nat))
    (h : ∀ s ∈ sectors, s.length = sizeof_ccd_sector) :
    ((sectors.map payload)).flatten.length = 2048 * sectors.length := by
  induction sectors with
  | nil => simp
  | cons s rest ih =>
    simp only [List.map_cons, List.flatten_cons, List.length_append,
      payload_length s (h s (by simp)), ih (fun t ht => h t (by simp [ht])),
      List.length_cons]
    rw [DATA_SIZE]
    ring

theorem byteAt15_append (pre : List Nat) (m : Nat) (content : List Nat)
    (hpre : pre.length = 15) :
    byteAt (pre ++ [m] ++ content) 15 = m := by
  rw [byteAt, List.append_assoc, List.getD_eq_getElem?_getD,
    List.getElem?_append_right hpre.le]
  simp [hpre]

theorem drop15_append (pre : List Nat) (m : Nat) (content : List Nat)
    (hpre : pre.length = 15) :
    (pre ++ [m] ++ content).drop 15 = m :: content := by
  rw [List.append_assoc, List.drop_left' hpre]
  rfl

theorem length_header_sector (pre : List Nat) (m : Nat) (content : List Nat)
    (hpre : pre.length = 15) (hc : content.length = 2336) :
    (pre ++ [m] ++ content).length = sizeof_ccd_sector := by
  rw [sizeof_ccd_sector_eq]
  simp [hpre, hc]

theorem good_sampleMode1Sector : IsGoodSector sampleMode1Sector :=
  ⟨length_header_sector _ _ _ (List.length_replicate _ _) (List.length_replicate _ _),
   Or.inl (byteAt15_append _ _ _ (List.length_replicate _ _))⟩

theorem good_headerVariantSector : IsGoodSector headerVariantSector :=
  ⟨length_header_sector _ _ _ (List.length_replicate _ _) (List.length_replicate _ _),
   Or.inl (byteAt15_append _ _ _ (List.length_replicate _ _))⟩

theorem length_zeroSector : zeroSector.length = sizeof_ccd_sector := by
  rw [sizeof_ccd_sector_eq, zeroSector, List.length_replicate]

theorem byteAt_zeroSector : byteAt zeroSector 15 = 0 := by
  rw [zeroSector, byteAt, List.getD_eq_getElem?_getD, List.getElem?_replicate]
  simp

theorem zeroSector_eval :
    convert zeroSector false =
      { output := [], progressCalls := [],
        result := some (.unrecognizedSectorMode 0 0) } := by
  rw [convert, ← List.append_nil zeroSector,
    convertLoop_badmode zeroSector [] 0 false length_zeroSector
      (by rw [byteAt_zeroSector]; decide) (by rw [byteAt_zeroSector]; decide),
    byteAt_zeroSector]

/-! ### The claims -/

/-- Claim C6: for the empty input (the source yields zero bytes on the first
read), `convert` returns success and writes nothing to the sink. -/
theorem convert_empty_input (p : Bool) :
    convert [] p = { output := [], progressCalls := [], result := none } := by
  rw [convert, convertLoop_nil]

/-- Claim C3: for every input that is the in-order concatenation of
well-formed sector records of mode 1 or mode 2, `convert` succeeds and the
sink receives exactly the in-order concatenation of the per-record 2048-byte
user-data fields (offset 16 into the record for mode 1, offset 24 for
mode 2), with total output length `2048 × N`. -/
theorem convert_wellformed_sectors (sectors : List (List Nat)) (p : Bool)
    (h : ∀ s ∈ sectors, IsGoodSector s) :
    convert sectors.flatten p =
      { output := (sectors.map payload).flatten,
        progressCalls := if p then List.range' 1 sectors.length else [],
        result := none } ∧
    (convert sectors.flatten p).output.length = 2048 * sectors.length := by
  have hmain := convertLoop_flatten sectors 0 p h
  rw [convert]
  refine ⟨hmain, ?_⟩
  rw [hmain]
  exact flatten_payload_length sectors (fun s hs => (h s hs).1)

/-- Witness for C3: a single well-formed mode-1 sector. -/
theorem convert_wellformed_sectors_witness :
    (∀ s ∈ [sampleMode1Sector], IsGoodSector s) ∧
    (convert [sampleMode1Sector].flatten true =
      { output := ([sampleMode1Sector].map payload).flatten,
        progressCalls := if true then List.range' 1 [sampleMode1Sector].length else [],
        result := none } ∧
    (convert [sampleMode1Sector].flatten true).output.length
      = 2048 * [sampleMode1Sector].length) := by
  have hall : ∀ s ∈ [sampleMode1Sector], IsGoodSector s := by
    intro s hs
    rw [List.mem_singleton] at hs
    rw [hs]
    exact good_sampleMode1Sector
  exact ⟨hall, convert_wellformed_sectors [sampleMode1Sector] true hall⟩

/-- Claim C4: after any run of well-formed sectors, a complete record whose
mode byte is none of 1, 2, 0xE2 makes `convert` fail with
`UnrecognizedSectorModeError` carrying the offending mode byte and the
sector index, and only the payloads of the earlier sectors are written. -/
theorem convert_unrecognized_mode (good : List (List Nat)) (s rest : List Nat)
    (p : Bool) (hg : ∀ t ∈ good, IsGoodSector t)
    (hl : s.length = sizeof_ccd_sector)
    (hm : byteAt s 15 ≠ 1 ∧ byteAt s 15 ≠ 2 ∧ byteAt s 15 ≠ 0xE2) :
    (convert (good.flatten ++ (s ++ rest)) p).result
        = some (.unrecognizedSectorMode (byteAt s 15) good.length) ∧
    (convert (good.flatten ++ (s ++ rest)) p).output = (good.map payload).flatten := by
  rw [convert, convertLoop_flatten_append good (s ++ rest) 0 p hg,
    convertLoop_badmode s rest (0 + good.length) p hl hm.1 hm.2.1]
  constructor
  · simp
  · simp

/-- Witness for C4: the single all-zero record, giving
`UnrecognizedSectorMode(0, 0)`. -/
theorem convert_unrecognized_mode_witness :
    ((∀ t ∈ ([] : List (List Nat)), IsGoodSector t) ∧
      zeroSector.length = sizeof_ccd_sector ∧
      (byteAt zeroSector 15 ≠ 1 ∧ byteAt zeroSector 15 ≠ 2 ∧
        byteAt zeroSector 15 ≠ 0xE2)) ∧
    ((convert (([] : List (List Nat)).flatten ++ (zeroSector ++ [])) false).result
        = some (.unrecognizedSectorMode (byteAt zeroSector 15)
            ([] : List (List Nat)).length) ∧
      (convert (([] : List (List Nat)).flatten ++ (zeroSector ++ [])) false).output
        = (([] : List (List Nat)).map payload).flatten) := by
  have hm : byteAt zeroSector 15 ≠ 1 ∧ byteAt zeroSector 15 ≠ 2 ∧
      byteAt zeroSector 15 ≠ 0xE2 := by
    rw [byteAt_zeroSector]
    refine ⟨by decide, by decide, by decide⟩
  exact ⟨⟨fun t ht => absurd ht (List.not_mem_nil t), length_zeroSector, hm⟩,
    convert_unrecognized_mode [] zeroSector [] false
      (fun t ht => absurd ht (List.not_mem_nil t)) length_zeroSector hm⟩

/-- Claim C5: whenever `convert` fails, it has stopped at the first chunk of
the input that is not a well-formed supported sector: the output holds
exactly the payloads of the earlier chunks (nothing of the failing chunk or
of any later chunk), and bytes already in the sink stay in place unchanged
before it. -/
theorem convert_failure_stops_at_first_bad_sector
    (src : List Nat) (p : Bool) (sink0 : List Nat) (e : ConvError)
    (h : (convert src p).result = some e) :
    ∃ k, k < (chunks src).length ∧
      (∀ j, j < k → IsGoodSector ((chunks src).getD j [])) ∧
      ¬ IsGoodSector ((chunks src).getD k []) ∧
      (convert src p).output = (((chunks src).take k).map payload).flatten ∧
      sinkAfter sink0 src p
        = sink0 ++ (((chunks src).take k).map payload).flatten ∧
      (convert src p).output.length = 2048 * k := by
  rw [convert] at h ⊢
  obtain ⟨k, A, B, C, D, E, F⟩ := convertLoop_master src 0 p
  obtain ⟨h1, h2⟩ := E e h
  refine ⟨k, h1, A, h2, B, ?_, ?_⟩
  · rw [sinkAfter, convert, B]
  · rw [B]
    exact flatten_payload_take_length (chunks src) k A h1.le

/-- Witness for C5: the single all-zero record failing at sector 0, with
prior sink content `[9]`. -/
theorem convert_failure_stops_witness :
    (convert zeroSector false).result = some (.unrecognizedSectorMode 0 0) ∧
    (∃ k, k < (chunks zeroSector).length ∧
      (∀ j, j < k → IsGoodSector ((chunks zeroSector).getD j [])) ∧
      ¬ IsGoodSector ((chunks zeroSector).getD k []) ∧
      (convert zeroSector false).output
        = (((chunks zeroSector).take k).map payload).flatten ∧
      sinkAfter [9] zeroSector false
        = [9] ++ (((chunks zeroSector).take k).map payload).flatten ∧
      (convert zeroSector false).output.length = 2048 * k) := by
  have h : (convert zeroSector false).result
      = some (.unrecognizedSectorMode 0 0) := by
    rw [zeroSector_eval]
  exact ⟨h, convert_failure_stops_at_first_bad_sector zeroSector false [9]
    (.unrecognizedSectorMode 0 0) h⟩

/-- Claim C7: with the progress sink enabled, it is called exactly once per
successfully processed sector, with the strictly increasing cumulative
counts `1, 2, …, k`, and never for a sector whose processing failed. -/
theorem convert_progress_reporting (src : List Nat) :
    ∃ k, (convert src true).progressCalls = List.range' 1 k ∧
      (convert src true).output.length = 2048 * k ∧
      (∀ j, j < k → IsGoodSector ((chunks src).getD j [])) ∧
      ((convert src true).result = none → k = (chunks src).length) ∧
      (∀ e, (convert src true).result = some e →
        k < (chunks src).length ∧ ¬ IsGoodSector ((chunks src).getD k [])) := by
  rw [convert]
  obtain ⟨k, A, B, C, D, E, F⟩ := convertLoop_master src 0 true
  have hk : k ≤ (chunks src).length := by
    cases hres : (convertLoop src 0 true).result with
    | none => exact le_of_eq (D hres)
    | some e => exact (E e hres).1.le
  refine ⟨k, ?_, ?_, A, D, E⟩
  · rw [C]
    simp
  · rw [B]
    exact flatten_payload_take_length (chunks src) k A hk

/-- Claim C9: the `IncompleteSectorError` raise inside `convert` is
unreachable: the ctypes size of a constructed sector record always equals the
fixed expected size, so the guard `sizeof(src_sect) < expected_size` is
never true and `convert` never produces that error. -/
theorem incompleteSector_unreachable (src : List Nat) (p : Bool) :
    isIncompleteSector (convert src p).result = false ∧
    ∀ s : CcdSector, sizeof_ccd_sector ≤ s.sizeofInst := by
  rw [convert]
  obtain ⟨k, A, B, C, D, E, F⟩ := convertLoop_master src 0 p
  exact ⟨F, fun s => le_refl _⟩

/-- Claim C10: every write `convert` performs is one whole 2048-byte user
data field, so at any point — including after a failure — the output is a
concatenation of 2048-byte blocks and its length is a multiple of 2048. -/
theorem convert_output_2048_blocks (src : List Nat) (p : Bool) :
    ∃ blocks : List (List Nat),
      (convert src p).output = blocks.flatten ∧
      (∀ b ∈ blocks, b.length = DATA_SIZE) ∧
      2048 ∣ (convert src p).output.length := by
  rw [convert]
  obtain ⟨k, A, B, C, D, E, F⟩ := convertLoop_master src 0 p
  have hk : k ≤ (chunks src).length := by
    cases hres : (convertLoop src 0 p).result with
    | none => exact le_of_eq (D hres)
    | some e => exact (E e hres).1.le
  refine ⟨((chunks src).take k).map payload, B,
    payload_take_blocks (chunks src) k A hk, ?_⟩
  rw [B, flatten_payload_take_length (chunks src) k A hk]
  exact Dvd.intro k rfl

/-- Claim C8: two complete sector records that agree on the mode byte and on
the whole content region (everything from offset 15 on) but differ
arbitrarily in the 12 synchronization bytes and the 3 address bytes lead to
identical behavior of `convert`: same written payload and same
success-or-error outcome. -/
theorem convert_header_noninterference (s1 s2 rest : List Nat) (p : Bool)
    (h1 : s1.length = sizeof_ccd_sector) (h2 : s2.length = sizeof_ccd_sector)
    (heq : s1.drop 15 = s2.drop 15) :
    convert (s1 ++ rest) p = convert (s2 ++ rest) p := by
  have e1 : ∀ t : List Nat, byteAt t 15 = (t.drop 15).getD 0 0 := by
    intro t
    simp [byteAt, List.getD_eq_getElem?_getD, List.getElem?_drop]
  have hmode : byteAt s1 15 = byteAt s2 15 := by
    rw [e1, e1, heq]
  have hdrop16 : s1.drop 16 = s2.drop 16 := by
    have t1 : (s1.drop 15).drop 1 = s1.drop 16 := by
      rw [List.drop_drop]
    have t2 : (s2.drop 15).drop 1 = s2.drop 16 := by
      rw [List.drop_drop]
    rw [← t1, ← t2, heq]
  have hdrop24 : s1.drop 24 = s2.drop 24 := by
    have t1 : (s1.drop 15).drop 9 = s1.drop 24 := by
      rw [List.drop_drop]
    have t2 : (s2.drop 15).drop 9 = s2.drop 24 := by
      rw [List.drop_drop]
    rw [← t1, ← t2, heq]
  rw [convert, convert]
  by_cases hm1 : byteAt s1 15 = 1
  · rw [convertLoop_mode1 s1 rest 0 p h1 hm1,
      convertLoop_mode1 s2 rest 0 p h2 (hmode ▸ hm1), hdrop16]
  · by_cases hm2 : byteAt s1 15 = 2
    · rw [convertLoop_mode2 s1 rest 0 p h1 hm2,
        convertLoop_mode2 s2 rest 0 p h2 (hmode ▸ hm2), hdrop24]
    · rw [convertLoop_badmode s1 rest 0 p h1 hm1 hm2,
        convertLoop_badmode s2 rest 0 p h2 (hmode ▸ hm1) (hmode ▸ hm2), hmode]

/-- Witness for C8: `headerVariantSector` and `sampleMode1Sector` differ in
all 15 header bytes yet convert identically. -/
theorem convert_header_noninterference_witness :
    (headerVariantSector.length = sizeof_ccd_sector ∧
      sampleMode1Sector.length = sizeof_ccd_sector ∧
      headerVariantSector.drop 15 = sampleMode1Sector.drop 15) ∧
    convert (headerVariantSector ++ []) false
      = convert (sampleMode1Sector ++ []) false := by
  have hd : headerVariantSector.drop 15 = sampleMode1Sector.drop 15 := by
    rw [headerVariantSector, sampleMode1Sector,
      drop15_append _ _ _ (List.length_replicate _ _),
      drop15_append _ _ _ (List.length_replicate _ _)]
  exact ⟨⟨good_headerVariantSector.1, good_sampleMode1Sector.1, hd⟩,
    convert_header_noninterference headerVariantSector sampleMode1Sector [] false
      good_headerVariantSector.1 good_sampleMode1Sector.1 hd⟩

/-- Claim C2, actual code behavior at a session-marker sector: the branch
comparing the `int` mode byte to a `bytes` literal can never be
taken, so the record with mode byte 0xE2 is reported as an unrecognized
sector mode instead of as a session marker. -/
theorem convert_session_marker_sector_behavior :
    convert sessionMarkerSector true =
      { output := [], progressCalls := [],
        result := some (.unrecognizedSectorMode 0xE2 0) } := by
  have hb : byteAt sessionMarkerSector 15 = 0xE2 := by
    rw [sessionMarkerSector]
    exact byteAt15_append _ _ _ (List.length_replicate _ _)
  have hl : sessionMarkerSector.length = sizeof_ccd_sector := by
    rw [sessionMarkerSector]
    exact length_header_sector _ _ _ (List.length_replicate _ _)
      (List.length_replicate _ _)
  rw [convert, ← List.append_nil sessionMarkerSector,
    convertLoop_badmode sessionMarkerSector [] 0 true hl
      (by rw [hb]; decide) (by rw [hb]; decide), hb]

/-- Claim C1, actual code behavior at a truncated input of length
`1 × 2352 + 5`: the first sector is fully converted (payload written,
progress reported), then the trailing 5 bytes make
`ccd_sector.from_buffer_copy` raise the ctypes `ValueError` (buffer size 5
instead of at least 2352) — not the in-function `IncompleteSectorError`,
and without any sector index. -/
theorem convert_truncated_input_behavior :
    convert truncatedInput true =
      { output := payload sampleMode1Sector,
        progressCalls := [1],
        result := some (.bufferSizeTooSmall 5 sizeof_ccd_sector) } := by
  rw [convert, truncatedInput,
    convertLoop_good sampleMode1Sector [65, 66, 67, 68, 69] 0 true
      good_sampleMode1Sector,
    convertLoop_short [65, 66, 67, 68, 69] 1 true (by decide)
      (by rw [sizeof_ccd_sector_eq]; decide)]
  simp

end Ccd2iso
